import Mathlib

/-!
# HARVEST — verification of the spec against the code

This file shallowly embeds the parts of the HARVEST repository that the
claims talk about:

* the frontend `src/Frontend/harvest-ui/src/App.tsx` (form validation,
  state→parcel mapping, month conversion, crop-image lookup, the
  results-screen state machine and its revenue display), embedded as pure
  Lean functions over a small model of JavaScript values; and
* the backend crop-recommendation engine (`plan_annual`, `predict_month`
  and the image-ordering payload), whose Python sources are not part of
  the repository snapshot and are therefore modelled from the spec
  (each such definition's doc comment starts with "Modelled from the
  spec").

JavaScript numbers are modelled as `Option ℚ`: `some q` is a finite
number and `none` stands for the non-finite values (`NaN`, `±Infinity`)
that string coercion can produce.  JSON/JS runtime values are modelled by
the inductive `JsVal` below.  JavaScript string builtins (`toLowerCase`,
`trim`, `endsWith`, `slice(0,-1)`, `split(" ")`) are modelled
character-wise with ASCII case folding, which covers every string the
embedded code builds or compares.  Definitions come first, then the
helper lemmas and the claim theorems.
-/

/-- A JavaScript number: `some q` is finite, `none` is `NaN`/`±Infinity`. -/
abbrev JsNum := Option ℚ

/-- A JavaScript runtime value, as far as the embedded code inspects one. -/
inductive JsVal where
  | nullV : JsVal
  | undef : JsVal
  | boolV : Bool → JsVal
  | numV : JsNum → JsVal
  | strV : String → JsVal
  | arr : List JsVal → JsVal
  | obj : List (String × JsVal) → JsVal

namespace JsVal

/-- `typeof v === "object"` (true for objects, arrays and `null`). -/
def isObjLike : JsVal → Bool
  | .obj _ => true
  | .arr _ => true
  | .nullV => true
  | _ => false

/-- JavaScript truthiness. -/
def truthy : JsVal → Bool
  | .nullV => false
  | .undef => false
  | .boolV b => b
  | .numV none => false
  | .numV (some q) => decide (q ≠ 0)
  | .strV s => decide (s ≠ "")
  | .arr _ => true
  | .obj _ => true

/-- Property access `v[k]` by name: `undefined` unless `v` is an object
with the field. -/
def get : JsVal → String → JsVal
  | .obj fs, k => ((fs.find? (fun p => p.1 == k)).map Prod.snd).getD .undef
  | _, _ => .undef

end JsVal

/-- Is this an ASCII whitespace character (as trimmed by `String.trim`
and by JavaScript's `Number`)? -/
def isSpaceChar (c : Char) : Bool :=
  c = ' ' ∨ c = '\t' ∨ c = '\n' ∨ c = '\r'

/-- Drop leading whitespace from a character list. -/
def dropSpaces : List Char → List Char
  | [] => []
  | c :: cs => if isSpaceChar c then dropSpaces cs else c :: cs

/-- Read a maximal run of decimal digits, returning its value, its
length and the rest of the input. -/
def readDigits : List Char → Nat → Nat → Nat × Nat × List Char
  | [], acc, len => (acc, len, [])
  | c :: cs, acc, len =>
    if c.isDigit then readDigits cs (acc * 10 + (c.toNat - '0'.toNat)) (len + 1)
    else (acc, len, c :: cs)

/-- Parse an unsigned decimal numeral (`"12"`, `"12.5"`, `".5"`, `"5."`);
`none` on anything else. -/
def parseDecimal (cs : List Char) : Option ℚ :=
  let (ip, ilen, rest) := readDigits cs 0 0
  match rest with
  | [] => if ilen = 0 then none else some (ip : ℚ)
  | '.' :: rest' =>
    let (fp, flen, rest'') := readDigits rest' 0 0
    if rest'' = [] ∧ ilen + flen ≠ 0 then
      some ((ip : ℚ) + (fp : ℚ) / ((10 : ℚ) ^ flen))
    else none
  | _ => none

/-- Model of JavaScript `Number(s)` on decimal numerals: `none` is `NaN`. -/
def jsNumber (s : String) : JsNum :=
  match dropSpaces s.data.reverse with
  | [] => some 0
  | rcs =>
    match dropSpaces rcs.reverse with
    | '-' :: cs => (parseDecimal cs).map (fun q => -q)
    | '+' :: cs => parseDecimal cs
    | cs => parseDecimal cs

/-- JavaScript `a <= b` with a possibly non-finite left operand:
comparisons against `NaN` are `false`. -/
def jsLe (a : JsNum) (b : ℚ) : Bool :=
  match a with
  | none => false
  | some q => decide (q ≤ b)

/-- ASCII `toLowerCase` on one character. -/
def lowerChar (c : Char) : Char :=
  if 'A' ≤ c ∧ c ≤ 'Z' then Char.ofNat (c.toNat + 32) else c

/-- ASCII `toUpperCase` on one character. -/
def upperChar (c : Char) : Char :=
  if 'a' ≤ c ∧ c ≤ 'z' then Char.ofNat (c.toNat - 32) else c

/-- `s.toLowerCase()`. -/
def jsToLower (s : String) : String :=
  String.mk (s.data.map lowerChar)

/-- `s.trim()`. -/
def jsTrim (s : String) : String :=
  String.mk ((dropSpaces (dropSpaces s.data).reverse).reverse)

/-- `s.endsWith(c)` for a single-character suffix. -/
def endsWithChar (s : String) (c : Char) : Bool :=
  s.data.getLast? == some c

/-- `s.slice(0, -1)`: drop the last character. -/
def dropLastChar (s : String) : String :=
  String.mk s.data.dropLast

/-- `MONTHS` from `App.tsx`. -/
def MONTHS : List String :=
  ["January","February","March","April","May","June","July","August",
   "September","October","November","December"]

/-- `US_STATES` from `App.tsx` (50 states plus the District of Columbia). -/
def US_STATES : List String :=
  ["Alabama","Alaska","Arizona","Arkansas","California","Colorado","Connecticut",
   "Delaware","District of Columbia","Florida","Georgia","Hawaii","Idaho",
   "Illinois","Indiana","Iowa","Kansas","Kentucky","Louisiana","Maine","Maryland",
   "Massachusetts","Michigan","Minnesota","Mississippi","Missouri","Montana",
   "Nebraska","Nevada","New Hampshire","New Jersey","New Mexico","New York",
   "North Carolina","North Dakota","Ohio","Oklahoma","Oregon","Pennsylvania",
   "Rhode Island","South Carolina","South Dakota","Tennessee","Texas","Utah",
   "Vermont","Virginia","Washington","West Virginia","Wisconsin","Wyoming"]

/-- `Array.prototype.findIndex`, with explicit index accumulator
(`none` models the `-1` result). -/
def findIndexAux {α : Type} (p : α → Bool) : List α → Nat → Option Nat
  | [], _ => none
  | x :: xs, i => if p x then some i else findIndexAux p xs (i + 1)

/-- `monthToNumber` from `App.tsx`: index of the case-insensitive match in
`MONTHS` plus one, defaulting to `1` when there is no match. -/
def monthToNumber (name : String) : Nat :=
  match findIndexAux (fun m => jsToLower m == jsToLower name) MONTHS 0 with
  | some idx => idx + 1
  | none => 1

/-- `STATE_TO_PARCEL` from `App.tsx`: the record built by `reduce` maps the
state at index `idx` of `US_STATES` to `"P" ++ (idx+1)`; a name that is not
a key reads as `undefined` (`none`). -/
def STATE_TO_PARCEL (name : String) : Option String :=
  (findIndexAux (fun s => s == name) US_STATES 0).map (fun i => "P" ++ toString (i + 1))

/-- `STATE_TO_PARCEL[prettyState] || "P1"` from `fetchPrediction`. -/
def parcelIdFor (prettyState : String) : String :=
  (STATE_TO_PARCEL prettyState).getD "P1"

/-- `CROP_IMAGE` from `App.tsx`; image assets are identified by the
names they are imported under. -/
def CROP_IMAGE : List (String × String) :=
  [("wheat", "wheatImg"), ("carrot", "carrotImg"), ("corn", "cornImg"),
   ("maize", "cornImg"), ("rice", "riceImg"), ("soy", "soyImg"),
   ("onion", "onionImg"), ("soybean", "soyImg"), ("barley", "barleyImg"),
   ("potato", "potatoImg"), ("tomato", "tomatoImg"), ("alfalfa", "alfalfaImg"),
   ("cotton", "cottonImg")]

/-- The generic fallback image (`Wheatwinter.png` import). -/
def fallbackImg : String := "fallbackImg"

/-- Record lookup in `CROP_IMAGE` (`undefined`, i.e. `none`, when absent;
all stored images are non-empty strings, hence truthy). -/
def cropImageLookup (key : String) : Option String :=
  ((CROP_IMAGE.find? (fun p => p.1 == key)).map Prod.snd)

/-- `key.endsWith("s") ? key.slice(0, -1) : key` from `getCropImage`. -/
def stripTrailingS (key : String) : String :=
  if endsWithChar key 's' then dropLastChar key else key

/-- `getCropImage` from `App.tsx`: trim and lower-case the name, look it
up, retry with one trailing `"s"` removed, fall back to `fallbackImg`. -/
def getCropImage (name : String) : String :=
  match cropImageLookup (jsToLower (jsTrim name)) with
  | some img => img
  | none => (cropImageLookup (stripTrailingS (jsToLower (jsTrim name)))).getD fallbackImg

/-- The `Errors` record of `App.tsx`: one optional message per field. -/
structure Errors where
  planType : Option String
  stateField : Option String
  startMonth : Option String
  initialInvestment : Option String
  landSqft : Option String

/-- `Object.keys(nextErrors).length > 0`: some field has an error. -/
def Errors.hasAny (e : Errors) : Bool :=
  e.planType.isSome || e.stateField.isSome || e.startMonth.isSome ||
    e.initialInvestment.isSome || e.landSqft.isSome

/-- `handleExplore` from `App.tsx` as a pure function of the five form
fields, returning the recorded errors together with the new `showResults`
flag (results — and hence any backend request, which is only issued from
`ResultsScreen` — appear only when the flag is `true`). -/
def handleExplore (planType stateUS startMonth initialInvestment landSqft : String) :
    Errors × Bool :=
  let nextErrors : Errors :=
    { planType := if planType = "" then some "Required" else none
      stateField := if jsTrim stateUS = "" then some "Required" else none
      startMonth := if startMonth = "" then some "Required" else none
      initialInvestment := if initialInvestment = "" then some "Required" else none
      landSqft :=
        if landSqft = "" || jsLe (jsNumber landSqft) 0 then
          some "Enter a positive number"
        else none }
  (nextErrors, if nextErrors.hasAny then false else true)

/-- `acres` in `ResultsScreen`:
`landSqft ? Number(landSqft) / 43560 : 0`. -/
def acres (landSqft : String) : JsNum :=
  if landSqft = "" then some 0
  else (jsNumber landSqft).map (fun q => q / 43560)

/-- The `num` helper of `ResultsScreen`: coerce strings and numbers,
keep only finite results (`none` models `null`). -/
def num (v : JsVal) : Option ℚ :=
  match v with
  | .strV s => jsNumber s
  | .numV q => q
  | _ => none

/-- `extractBaseYield` from `ResultsScreen`: first of
`profit_per_acre`, `expected_yield`, `yield_per_acre`,
`yield_lb_per_acre`, `yield` that coerces to a finite number. -/
def extractBaseYield (v : JsVal) : Option ℚ :=
  if !v.truthy || !v.isObjLike then none
  else
    (num (v.get "profit_per_acre")).orElse (fun _ =>
      (num (v.get "expected_yield")).orElse (fun _ =>
        (num (v.get "yield_per_acre")).orElse (fun _ =>
          (num (v.get "yield_lb_per_acre")).orElse (fun _ =>
            num (v.get "yield")))))

/-- `typeof x === "string" && x` as used in `extractFertilizer`: a
non-empty string passes, everything else (including `""`) is falsy. -/
def strField (v : JsVal) : Option String :=
  match v with
  | .strV s => if s = "" then none else some s
  | _ => none

/-- `extractFertilizer` from `ResultsScreen`. -/
def extractFertilizer (v : JsVal) : Option String :=
  if !v.truthy || !v.isObjLike then none
  else
    (strField (v.get "fertilizer_used")).orElse (fun _ =>
      (strField (v.get "fertilizer")).orElse (fun _ =>
        strField (v.get "recommended_fertilizer")))

/-- `titleCase` from `App.tsx`, modelled on space-separated words: each
word's first character upper-cased, the rest lower-cased ("" maps to ""). -/
def titleCaseWord (w : List Char) : List Char :=
  match w with
  | [] => []
  | c :: cs => upperChar c :: cs.map lowerChar

/-- Split a character list on spaces (as `String.split` would,
preserving empty segments). -/
def splitOnSpace (cs : List Char) : List (List Char) :=
  cs.foldr
    (fun c acc =>
      if c = ' ' then [] :: acc
      else
        match acc with
        | [] => [[c]]
        | w :: ws => (c :: w) :: ws)
    [[]]

/-- `titleCase` from `App.tsx` (falsy strings returned unchanged). -/
def titleCase (s : String) : String :=
  if s = "" then s
  else
    String.mk (List.intercalate [' '] ((splitOnSpace s.data).map titleCaseWord))

/-- `v ?? d` for string-valued fields followed by string operations
(`crop_name` consumption in `fetchPrediction`). -/
def jsStr (v : JsVal) (d : String) : String :=
  match v with
  | .strV s => s
  | _ => d

/-- The `PlanOption` type of `App.tsx`. -/
structure PlanOption where
  id : String
  label : String
  crop : String
  baseYield : Option ℚ
  fertilizerUsed : Option String
deriving Inhabited

/-- `Array.isArray(json?.recommendations) ? json.recommendations : []`
from the short-term branch of `fetchPrediction`. -/
def recsOf (json : JsVal) : List JsVal :=
  match json.get "recommendations" with
  | .arr xs => xs
  | _ => []

/-- The `planOptions` construction of the short-term branch of
`fetchPrediction`. -/
def mkPlanOptions (recs : List JsVal) : List PlanOption :=
  recs.enum.map (fun p =>
    { id := toString p.1
      label := toString (p.1 + 1) ++ ": " ++
        titleCase (jsStr (p.2.get "crop_name") ("Option " ++ toString (p.1 + 1)))
      crop := titleCase (jsStr (p.2.get "crop_name") "Unknown")
      baseYield := extractBaseYield p.2
      fertilizerUsed := extractFertilizer p.2 })

/-- The `ResultsScreen` state fields the embedded handlers touch
(`loading` is omitted: no claim mentions it).  `selectedPlanIndex` is a
JavaScript `number | null`, hence `Option ℚ`. -/
structure ResultsState where
  plans : List PlanOption
  selectedPlanIndex : Option ℚ
  predictedCrop : String
  predictedBaseYield : Option ℚ
  apiError : Option String

/-- The state updates of the short-term branch of `fetchPrediction` on a
successfully parsed `res.ok` response body (`setApiError(null)` has run,
and this branch does not throw). -/
def applyShortTermResponse (st : ResultsState) (json : JsVal) : ResultsState :=
  let planOptions := mkPlanOptions (recsOf json)
  if planOptions.length > 0 then
    { st with
      plans := planOptions
      selectedPlanIndex := some 0
      predictedCrop := (planOptions.headD default).crop
      predictedBaseYield := (planOptions.headD default).baseYield
      apiError := none }
  else
    { st with
      plans := planOptions
      selectedPlanIndex := none
      predictedBaseYield := none
      apiError := none }

/-- JavaScript array indexing `l[q]` with a `number` index: defined only
for integral in-range indices. -/
def jsIndex (l : List PlanOption) (q : ℚ) : Option PlanOption :=
  if q.den = 1 ∧ 0 ≤ q.num then l.get? q.num.toNat else none

/-- `onPlanSelectChange` from `ResultsScreen`: coerce the select value,
store it as the selected index, and reflect the chosen plan (when it
exists) in `predictedCrop`/`predictedBaseYield`. -/
def onPlanSelectChange (st : ResultsState) (value : String) : ResultsState :=
  match jsNumber value with
  | none => { st with selectedPlanIndex := none }
  | some q =>
    match jsIndex st.plans q with
    | some chosen =>
      { st with
        selectedPlanIndex := some q
        predictedCrop := chosen.crop
        predictedBaseYield := chosen.baseYield }
    | none => { st with selectedPlanIndex := some q }

/-- `selectedPlan` from `ResultsScreen`. -/
def selectedPlan (st : ResultsState) : Option PlanOption :=
  st.selectedPlanIndex.bind (jsIndex st.plans)

/-- `expectedRevenue` from `ResultsScreen`:
`predictedBaseYield != null ? acres * predictedBaseYield : null`
(outer `none` is `null`; an inner `none` would be `NaN`). -/
def expectedRevenue (acresVal : JsNum) (predictedBaseYield : Option ℚ) :
    Option JsNum :=
  predictedBaseYield.map (fun b => acresVal.map (fun a => a * b))

/-- The option labels rendered by the plan `<select>` of `ResultsScreen`. -/
def planSelectOptions (plans : List PlanOption) : List String :=
  if plans.length = 0 then ["No plans available"] else plans.map (fun p => p.label)

/-- The `disabled` attribute of the plan `<select>`. -/
def planSelectDisabled (plans : List PlanOption) : Bool :=
  plans.length == 0

/-- The short-term request payload built by `fetchPrediction`. -/
structure ShortTermPayload where
  parcel_id : String
  month : Nat
  top_n : Nat
  ranking_method : String
  min_confidence : Nat

/-- The payload `fetchPrediction` posts to `/api/v1/predict/month`. -/
def shortTermPayload (prettyState prettyMonth : String) : ShortTermPayload :=
  { parcel_id := parcelIdFor prettyState
    month := monthToNumber (if prettyMonth = "" then "January" else prettyMonth)
    top_n := 5
    ranking_method := "profit"
    min_confidence := 60 }

/-- The field names `extractBaseYield` tries, in source order. -/
def yieldFieldOrder : List String :=
  ["profit_per_acre", "expected_yield", "yield_per_acre", "yield_lb_per_acre", "yield"]

/-- First field in the given order whose value coerces to a finite
number (the claim's wording of the extraction rule). -/
def firstFinite (v : JsVal) : List String → Option ℚ
  | [] => none
  | k :: ks =>
    match num (v.get k) with
    | some q => some q
    | none => firstFinite v ks

/-- `extractBaseYield` as the claim words it: `null` unless the value is
a (truthy) object, otherwise the first of the five fields that coerces
to a finite number. -/
def extractBaseYieldSpec (v : JsVal) : Option ℚ :=
  if v.truthy ∧ v.isObjLike then firstFinite v yieldFieldOrder else none

/-- The initial `ResultsScreen` state (the `useState` initialisers in
`App.tsx`). -/
def initialResultsState : ResultsState :=
  { plans := []
    selectedPlanIndex := none
    predictedCrop := "Wheat"
    predictedBaseYield := none
    apiError := none }

/-- Modelled from the spec: the Economics Calculator's revenue formula
`revenue = acres × effective_yield × price_per_unit` (§4.3); the
calculator itself (Backend `src/model/`) is not part of the repository
snapshot. -/
def economicsRevenue (acresVal effective_yield price_per_unit : ℚ) : ℚ :=
  acresVal * effective_yield * price_per_unit

/-- A recommendation as the backend returns it: the crop's effective
yield is 10, its price 2, its profit per acre 5. -/
def demoRecommendation : JsVal :=
  JsVal.obj [("crop_name", JsVal.strV "corn"),
             ("profit_per_acre", JsVal.numV (some 5)),
             ("expected_yield", JsVal.numV (some 10))]

/-- A response body carrying the single recommendation above. -/
def demoResponse : JsVal :=
  JsVal.obj [("recommendations", JsVal.arr [demoRecommendation])]

/-- A response carrying two recommendations, with distinct extracted
values, used to exercise plan selection. -/
def demoResponseTwo : JsVal :=
  JsVal.obj [("recommendations", JsVal.arr
    [demoRecommendation,
     JsVal.obj [("crop_name", JsVal.strV "rice"),
                ("expected_yield", JsVal.numV (some 7))]])]

/-- Modelled from the spec: a candidate crop for one month of the
rotation planner, already scored by the Yield Model and Economics
Calculator for the parcel under consideration (`profit` is the
unadjusted base profit of §4.5 step 2). -/
structure CropCandidate where
  name : String
  profit : ℚ

/-- Modelled from the spec: a `RotationEntry` — month, chosen crop
(`none` for a null-crop entry), profit, and the reason code recorded
when no candidate survives (§4.5 step 6). -/
structure RotationEntry where
  month : Nat
  crop : Option String
  profit : ℚ
  reason : Option String
deriving Inhabited

/-- The calendar months visited by `plan_annual`, in order:
`start_month, start_month+1, …` wrapping modulo 12 (§4.5). -/
def monthSeq (startMonth : Nat) : List Nat :=
  (List.range 12).map (fun i => (startMonth - 1 + i) % 12 + 1)

/-- Modelled from the spec: months since a crop was last chosen in this
plan — 0 if chosen last month, 12 (the maximum multiplier) if never
chosen (§4.5 step 3).  The history lists chosen crops, most recent
first. -/
def monthsSince (hist : List (Option String)) (name : String) : Nat :=
  match findIndexAux (fun c => c == some name) hist 0 with
  | some i => i
  | none => 12

/-- Modelled from the spec: adjusted score = unadjusted profit +
`diversification_bonus × months-since-last-chosen` (§4.5 step 3). -/
def adjustedScore (bonus : ℚ) (hist : List (Option String)) (c : CropCandidate) : ℚ :=
  c.profit + bonus * (monthsSince hist c.name : ℚ)

/-- Candidate `a` beats candidate `b`: strictly higher adjusted score,
or equal score and alphabetically earlier name (deterministic
tie-break). -/
def beats (bonus : ℚ) (hist : List (Option String)) (a b : CropCandidate) : Bool :=
  decide (adjustedScore bonus hist b < adjustedScore bonus hist a ∨
    (adjustedScore bonus hist a = adjustedScore bonus hist b ∧ a.name ≤ b.name))

/-- Modelled from the spec: select the candidate with the highest
adjusted score (§4.5 step 5); `none` on an empty candidate list. -/
def pickBest (bonus : ℚ) (hist : List (Option String)) :
    List CropCandidate → Option CropCandidate
  | [] => none
  | c :: cs =>
    match pickBest bonus hist cs with
    | none => some c
    | some b => if beats bonus hist c b then some c else some b

/-- Modelled from the spec: candidates whose unadjusted profit clears
the hard floor `min_profit_threshold` (§4.5 step 4). -/
def survivors (cands : List CropCandidate) (threshold : ℚ) : List CropCandidate :=
  cands.filter (fun c => decide (threshold ≤ c.profit))

/-- Modelled from the spec: one month of the planner — filter by the
profit floor, pick the best survivor, or record a null-crop entry with a
reason code (§4.5 steps 4–6). -/
def rotationStep (candsOf : Nat → List CropCandidate) (bonus threshold : ℚ)
    (hist : List (Option String)) (m : Nat) : RotationEntry :=
  match pickBest bonus hist (survivors (candsOf m) threshold) with
  | some c => { month := m, crop := some c.name, profit := c.profit, reason := none }
  | none => { month := m, crop := none, profit := 0, reason := some "NO_CANDIDATE" }

/-- Modelled from the spec: the forward-only month loop of the planner,
threading the rolling history of chosen crops (§4.5). -/
def planMonths (candsOf : Nat → List CropCandidate) (bonus threshold : ℚ) :
    List Nat → List (Option String) → List RotationEntry
  | [], _ => []
  | m :: ms, hist =>
    let e := rotationStep candsOf bonus threshold hist m
    e :: planMonths candsOf bonus threshold ms (e.crop :: hist)

/-- Modelled from the spec: `plan_annual(parcel_id, start_month,
diversification_bonus, min_profit_threshold)` (§4.5, §6).  `candsOf`
stands for the per-parcel scored candidate set of each month (repository
→ eligibility → yield → economics), so quantifying over it covers every
parcel. -/
def plan_annual (candsOf : Nat → List CropCandidate) (startMonth : Nat)
    (bonus threshold : ℚ) : List RotationEntry :=
  planMonths candsOf bonus threshold (monthSeq startMonth) []

/-- Modelled from the spec: a `RecommendationRecord` as the Short-Term
Ranker produces one (§3, §4.4). -/
structure RecommendationRecord where
  crop_name : String
  effective_yield : ℚ
  profit : ℚ
  confidence : ℚ

/-- The ranking key selected by `ranking_method ∈ {profit, yield,
confidence}` (§4.4). -/
def rankKey (method : String) (r : RecommendationRecord) : ℚ :=
  if method = "yield" then r.effective_yield
  else if method = "confidence" then r.confidence
  else r.profit

/-- Record `a` ranks no worse than `b`: strictly larger key, or equal
key and alphabetically earlier crop name (§4.4 step 5: descending by the
requested key, ties by crop name ascending). -/
def rankRel (method : String) (a b : RecommendationRecord) : Prop :=
  rankKey method b < rankKey method a ∨
    (rankKey method a = rankKey method b ∧ a.crop_name ≤ b.crop_name)

instance rankRelDecidable (method : String) : DecidableRel (rankRel method) := fun a b => by
  unfold rankRel
  infer_instance

instance rankRelTotal (method : String) : IsTotal RecommendationRecord (rankRel method) where
  total := by
    intro a b
    rcases lt_trichotomy (rankKey method a) (rankKey method b) with h | h | h
    · exact Or.inr (Or.inl h)
    · rcases le_total a.crop_name b.crop_name with hn | hn
      · exact Or.inl (Or.inr ⟨h, hn⟩)
      · exact Or.inr (Or.inr ⟨h.symm, hn⟩)
    · exact Or.inl (Or.inl h)

instance rankRelTrans (method : String) : IsTrans RecommendationRecord (rankRel method) where
  trans := by
    intro a b c hab hbc
    rcases hab with hab | ⟨hab, han⟩
    · rcases hbc with hbc | ⟨hbc, _⟩
      · exact Or.inl (lt_trans hbc hab)
      · exact Or.inl (hbc ▸ hab)
    · rcases hbc with hbc | ⟨hbc, hbn⟩
      · exact Or.inl (lt_of_lt_of_le hbc (le_of_eq hab.symm))
      · exact Or.inr ⟨hab.trans hbc, le_trans han hbn⟩

/-- Modelled from the spec: `predict_month(parcel_id, month, top_n,
ranking_method, min_confidence)` (§4.4) — `cands` stands for the scored
candidate set for (parcel, month) after eligibility filtering (steps
2–3); step 4 drops candidates below `min_confidence`, step 5 sorts by
the ranking key, descending with name tie-break, step 6 truncates to
`top_n`. -/
def predict_month (cands : List RecommendationRecord) (top_n : Nat) (method : String)
    (min_confidence : ℚ) : List RecommendationRecord :=
  ((cands.filter (fun c => decide (min_confidence ≤ c.confidence))).insertionSort
    (rankRel method)).take top_n

/-- Modelled from the spec and `IMAGE_SENDING_README.md`: for a
short-term prediction the image service sends the top recommended crops'
names in ranking order, at most 5. -/
def shortTermImageNames (recs : List RecommendationRecord) : List String :=
  (recs.take 5).map (fun r => r.crop_name)

/-- Modelled from the spec and `IMAGE_SENDING_README.md`: for a
long-term plan the image service sends the chosen crop of each month in
chronological order, at most 12 (months without a crop contribute no
image). -/
def longTermImageNames (plan : List RotationEntry) : List String :=
  (plan.take 12).filterMap (fun e => e.crop)

/-! ## Theorems: helper lemmas and the claim verdicts -/

theorem findIndexAux_lt {α : Type} {p : α → Bool} {l : List α} {i j : Nat}
    (h : findIndexAux p l i = some j) : j < i + l.length := by
  induction l generalizing i with
  | nil => simp [findIndexAux] at h
  | cons x xs ih =>
    unfold findIndexAux at h
    by_cases hp : p x
    · rw [if_pos hp] at h
      injection h with h
      subst h
      simp only [List.length_cons]
      omega
    · rw [if_neg hp] at h
      have := ih h
      simp only [List.length_cons]
      omega

theorem findIndexAux_eq_none {α : Type} {p : α → Bool} {l : List α}
    (h : ∀ x ∈ l, p x = false) : ∀ i, findIndexAux p l i = none := by
  induction l with
  | nil => intro i; rfl
  | cons x xs ih =>
    intro i
    unfold findIndexAux
    rw [h x (List.mem_cons_self x xs)]
    exact ih (fun y hy => h y (List.mem_cons_of_mem x hy)) (i + 1)

theorem cropImageLookup_mem {key img : String} (h : cropImageLookup key = some img) :
    img ∈ CROP_IMAGE.map Prod.snd := by
  unfold cropImageLookup at h
  cases hf : CROP_IMAGE.find? (fun p => p.1 == key) with
  | none => rw [hf] at h; simp at h
  | some p =>
    rw [hf] at h
    simp at h
    exact h ▸ List.mem_map_of_mem Prod.snd (List.mem_of_find?_eq_some hf)

/-- Claim C2: wherever the program converts square feet to acres it
divides by exactly 43,560 — on the results screen, `acres` is
`Number(landSqft) / 43560` for a non-empty `landSqft` and `0` for the
empty string. -/
theorem acres_divides_by_43560 (landSqft : String) (q : ℚ)
    (hne : landSqft ≠ "") (hq : jsNumber landSqft = some q) :
    acres landSqft = some (q / 43560) ∧ acres "" = some 0 := by
  refine ⟨?_, rfl⟩
  simp [acres, hne, hq]

theorem acres_divides_by_43560_witness :
    (("43560" : String) ≠ "" ∧ jsNumber "43560" = some 43560) ∧
    acres "43560" = some (43560 / 43560) :=
  ⟨⟨by decide, by rfl⟩,
    (acres_divides_by_43560 "43560" 43560 (by decide) (by rfl)).1⟩

/-- Claim C3: a `handleExplore` submission whose land-area field is empty
or coerces to a number ≤ 0 records a `landSqft` validation error and
leaves `showResults` false, so no results are shown and no backend
request (issued only from `ResultsScreen`) is made. -/
theorem handleExplore_rejects_nonpositive_land
    (planType stateUS startMonth initialInvestment landSqft : String)
    (h : landSqft = "" ∨ ∃ q, jsNumber landSqft = some q ∧ q ≤ 0) :
    (handleExplore planType stateUS startMonth initialInvestment landSqft).1.landSqft
        = some "Enter a positive number" ∧
    (handleExplore planType stateUS startMonth initialInvestment landSqft).2 = false := by
  have hl : (decide (landSqft = "") || jsLe (jsNumber landSqft) 0) = true := by
    rcases h with h | ⟨q, hq, hle⟩
    · simp [h]
    · simp [jsLe, hq, hle]
  constructor
  · simp only [handleExplore]
    rw [hl]
    rfl
  · simp only [handleExplore]
    rw [hl]
    simp [Errors.hasAny]

theorem handleExplore_rejects_nonpositive_land_witness :
    (jsNumber "0" = some 0 ∧ (0 : ℚ) ≤ 0) ∧
    ((handleExplore "short_term" "Texas" "January" "Under $500" "0").1.landSqft
        = some "Enter a positive number" ∧
      (handleExplore "short_term" "Texas" "January" "Under $500" "0").2 = false) :=
  ⟨⟨by rfl, le_refl 0⟩,
    handleExplore_rejects_nonpositive_land "short_term" "Texas" "January" "Under $500" "0"
      (Or.inr ⟨0, by rfl, le_refl 0⟩)⟩

theorem monthToNumber_bounds (name : String) :
    1 ≤ monthToNumber name ∧ monthToNumber name ≤ 12 := by
  unfold monthToNumber
  cases h : findIndexAux (fun m => jsToLower m == jsToLower name) MONTHS 0 with
  | none => exact ⟨le_refl 1, by decide⟩
  | some idx =>
    have hlt := findIndexAux_lt h
    have hlen : MONTHS.length = 12 := by rfl
    rw [hlen] at hlt
    refine ⟨?_, ?_⟩
    · show 1 ≤ idx + 1
      omega
    · show idx + 1 ≤ 12
      omega

/-- Claim C5: every short-term payload the UI posts to
`/api/v1/predict/month` satisfies `predict_month`'s declared ranges:
`month` (from `monthToNumber`) is in `1..12` for every month string
(unrecognized names give 1), `top_n` is the constant 5, `min_confidence`
the constant 60, `ranking_method` the constant `"profit"`. -/
theorem shortTermPayload_within_declared_ranges (prettyState prettyMonth : String) :
    1 ≤ (shortTermPayload prettyState prettyMonth).month ∧
    (shortTermPayload prettyState prettyMonth).month ≤ 12 ∧
    (∀ name, 1 ≤ monthToNumber name ∧ monthToNumber name ≤ 12) ∧
    (∀ name, findIndexAux (fun m => jsToLower m == jsToLower name) MONTHS 0 = none →
      monthToNumber name = 1) ∧
    monthToNumber "" = 1 ∧
    (shortTermPayload prettyState prettyMonth).top_n = 5 ∧
    1 ≤ (shortTermPayload prettyState prettyMonth).top_n ∧
    (shortTermPayload prettyState prettyMonth).ranking_method = "profit" ∧
    (shortTermPayload prettyState prettyMonth).min_confidence = 60 ∧
    (shortTermPayload prettyState prettyMonth).min_confidence ≤ 100 := by
  refine ⟨(monthToNumber_bounds _).1, (monthToNumber_bounds _).2,
    monthToNumber_bounds, ?_, by rfl, rfl, (by decide : (1 : Nat) ≤ 5), rfl, rfl,
    (by decide : (60 : Nat) ≤ 100)⟩
  intro name hn
  unfold monthToNumber
  rw [hn]

/-- Claim C6: `extractBaseYield` returns the first of `profit_per_acre`,
`expected_yield`, `yield_per_acre`, `yield_lb_per_acre`, `yield` (in
exactly that order) that coerces to a finite number, and `null` when the
input is not an object or none of those fields is finite. -/
theorem extractBaseYield_matches_tolerant_order (v : JsVal) :
    extractBaseYield v = extractBaseYieldSpec v ∧
    (¬ (v.truthy = true ∧ v.isObjLike = true) → extractBaseYield v = none) ∧
    ((∀ k ∈ yieldFieldOrder, num (v.get k) = none) → extractBaseYield v = none) := by
  refine ⟨?_, ?_, ?_⟩
  · by_cases ht : v.truthy
    · by_cases ho : v.isObjLike
      · simp only [extractBaseYield, extractBaseYieldSpec, ht, ho, Bool.not_true,
          Bool.or_self, Bool.false_eq_true, if_false, and_self, if_true,
          yieldFieldOrder, firstFinite]
        cases h1 : num (v.get "profit_per_acre") <;>
          cases h2 : num (v.get "expected_yield") <;>
            cases h3 : num (v.get "yield_per_acre") <;>
              cases h4 : num (v.get "yield_lb_per_acre") <;>
                cases h5 : num (v.get "yield") <;>
                  simp [Option.orElse, h1, h2, h3, h4, h5, firstFinite]
      · simp [extractBaseYield, extractBaseYieldSpec, ht, ho]
    · simp [extractBaseYield, extractBaseYieldSpec, ht]
  · intro h
    by_cases ht : v.truthy
    · by_cases ho : v.isObjLike
      · exact absurd ⟨ht, ho⟩ h
      · simp [extractBaseYield, ht, ho]
    · simp [extractBaseYield, ht]
  · intro h
    have h1 := h "profit_per_acre" (by simp [yieldFieldOrder])
    have h2 := h "expected_yield" (by simp [yieldFieldOrder])
    have h3 := h "yield_per_acre" (by simp [yieldFieldOrder])
    have h4 := h "yield_lb_per_acre" (by simp [yieldFieldOrder])
    have h5 := h "yield" (by simp [yieldFieldOrder])
    by_cases ht : v.truthy
    · by_cases ho : v.isObjLike
      · simp [extractBaseYield, ht, ho, h1, h2, h3, h4, h5, Option.orElse]
      · simp [extractBaseYield, ht, ho]
    · simp [extractBaseYield, ht]

/-- Claim C7: a response whose `recommendations` array is empty or
absent is a legitimate outcome, not an error: the plan list becomes
empty, the selected index and base yield become `null`, no error state
is set, and the select renders a disabled "No plans available" option. -/
theorem empty_recommendations_is_legitimate_outcome (st : ResultsState) (json : JsVal)
    (h : json.get "recommendations" = JsVal.arr [] ∨
      ∀ xs, json.get "recommendations" ≠ JsVal.arr xs) :
    (applyShortTermResponse st json).plans = [] ∧
    (applyShortTermResponse st json).selectedPlanIndex = none ∧
    (applyShortTermResponse st json).predictedBaseYield = none ∧
    (applyShortTermResponse st json).apiError = none ∧
    planSelectOptions (applyShortTermResponse st json).plans = ["No plans available"] ∧
    planSelectDisabled (applyShortTermResponse st json).plans = true := by
  have hr : recsOf json = [] := by
    unfold recsOf
    rcases h with h | h
    · rw [h]
    · cases hj : json.get "recommendations" with
      | arr xs => exact absurd hj (h xs)
      | nullV => rfl
      | undef => rfl
      | boolV b => rfl
      | numV q => rfl
      | strV s => rfl
      | obj fs => rfl
  have hp : mkPlanOptions (recsOf json) = [] := by
    rw [hr]; rfl
  constructor
  · simp [applyShortTermResponse, hp]
  constructor
  · simp [applyShortTermResponse, hp]
  constructor
  · simp [applyShortTermResponse, hp]
  constructor
  · simp [applyShortTermResponse, hp]
  constructor
  · simp [applyShortTermResponse, hp, planSelectOptions]
  · simp [applyShortTermResponse, hp, planSelectDisabled]

theorem empty_recommendations_is_legitimate_outcome_witness :
    ((JsVal.obj []).get "recommendations" = JsVal.arr [] ∨
      ∀ xs, (JsVal.obj []).get "recommendations" ≠ JsVal.arr xs) ∧
    ((applyShortTermResponse initialResultsState (JsVal.obj [])).plans = [] ∧
      (applyShortTermResponse initialResultsState (JsVal.obj [])).selectedPlanIndex = none ∧
      (applyShortTermResponse initialResultsState (JsVal.obj [])).predictedBaseYield = none ∧
      (applyShortTermResponse initialResultsState (JsVal.obj [])).apiError = none ∧
      planSelectOptions (applyShortTermResponse initialResultsState (JsVal.obj [])).plans
        = ["No plans available"] ∧
      planSelectDisabled (applyShortTermResponse initialResultsState (JsVal.obj [])).plans
        = true) :=
  ⟨Or.inr (fun _ hx => nomatch hx),
    empty_recommendations_is_legitimate_outcome initialResultsState (JsVal.obj [])
      (Or.inr (fun _ hx => nomatch hx))⟩

/-- Claim C9: `STATE_TO_PARCEL` maps the 51 listed state names
injectively to `"P1"`..`"P51"` in list order, and any name outside the
table — including the empty string — resolves to parcel `"P1"` when a
prediction is fetched. -/
theorem state_to_parcel_injective_P1_fallback :
    (US_STATES.length = 51 ∧
      STATE_TO_PARCEL "Alabama" = some "P1" ∧
      STATE_TO_PARCEL "Wyoming" = some "P51" ∧
      (∀ i, i < 51 → STATE_TO_PARCEL (US_STATES.getD i "") = some ("P" ++ toString (i + 1))) ∧
      (∀ s ∈ US_STATES, ∀ t ∈ US_STATES, STATE_TO_PARCEL s = STATE_TO_PARCEL t → s = t)) ∧
    (∀ s, s ∉ US_STATES → parcelIdFor s = "P1") := by
  constructor
  · decide
  · intro s hs
    have hall : ∀ x ∈ US_STATES, (x == s) = false := by
      intro x hx
      exact beq_eq_false_iff_ne.mpr (fun hxs => hs (hxs ▸ hx))
    unfold parcelIdFor STATE_TO_PARCEL
    rw [findIndexAux_eq_none hall 0]
    rfl

theorem state_to_parcel_injective_P1_fallback_witness :
    (("" : String) ∉ US_STATES) ∧ parcelIdFor "" = "P1" :=
  ⟨by decide, state_to_parcel_injective_P1_fallback.2 "" (by decide)⟩

/-- Claim C10: `getCropImage` is total and case-insensitive — it always
returns one of the mapped images or the fallback (never `undefined`),
depends only on the trimmed lower-cased name, prefers the direct mapping,
then the name with one trailing `"s"` removed, then the fallback. -/
theorem getCropImage_total_and_case_insensitive :
    (∀ name, getCropImage name ∈ fallbackImg :: CROP_IMAGE.map Prod.snd) ∧
    (∀ a b, jsToLower (jsTrim a) = jsToLower (jsTrim b) →
      getCropImage a = getCropImage b) ∧
    (∀ name img, cropImageLookup (jsToLower (jsTrim name)) = some img →
      getCropImage name = img) ∧
    (∀ name img, cropImageLookup (jsToLower (jsTrim name)) = none →
      cropImageLookup (stripTrailingS (jsToLower (jsTrim name))) = some img →
      getCropImage name = img) ∧
    (∀ name, cropImageLookup (jsToLower (jsTrim name)) = none →
      cropImageLookup (stripTrailingS (jsToLower (jsTrim name))) = none →
      getCropImage name = fallbackImg) := by
  refine ⟨?_, ?_, ?_, ?_, ?_⟩
  · intro name
    unfold getCropImage
    cases h1 : cropImageLookup (jsToLower (jsTrim name)) with
    | some img => exact List.mem_cons_of_mem _ (cropImageLookup_mem h1)
    | none =>
      cases h2 : cropImageLookup (stripTrailingS (jsToLower (jsTrim name))) with
      | some img =>
        simp only [h2, Option.getD_some]
        exact List.mem_cons_of_mem _ (cropImageLookup_mem h2)
      | none =>
        simp only [h2, Option.getD_none]
        exact List.mem_cons_self _ _
  · intro a b hab
    unfold getCropImage
    rw [hab]
  · intro name img h
    unfold getCropImage
    rw [h]
  · intro name img h1 h2
    unfold getCropImage
    rw [h1, h2]
    rfl
  · intro name h1 h2
    unfold getCropImage
    rw [h1, h2]
    rfl

theorem getCropImage_total_and_case_insensitive_witness :
    (getCropImage "" ∈ fallbackImg :: CROP_IMAGE.map Prod.snd) ∧
    (jsToLower (jsTrim " WHEAT ") = jsToLower (jsTrim "wheat") ∧
      getCropImage " WHEAT " = getCropImage "wheat") :=
  ⟨getCropImage_total_and_case_insensitive.1 "",
    by rfl,
    getCropImage_total_and_case_insensitive.2.1 " WHEAT " "wheat" (by rfl)⟩

/-- Claim C4 counterexample: on a 43,560 sq ft parcel (1 acre) with a
recommendation whose effective yield is 10 and market price 2, the
Expected Revenue the results screen shows is `acres × profit_per_acre`
= 5, while `acres × effective_yield × price_per_unit` = 20 — the
displayed figure is not the three-factor product. -/
theorem expectedRevenue_not_three_factor_product :
    expectedRevenue (acres "43560")
        (applyShortTermResponse initialResultsState demoResponse).predictedBaseYield
      = some (some 5) ∧
    economicsRevenue ((43560 : ℚ) / 43560) 10 2 = 20 ∧
    ¬ (some (some (5 : ℚ)) = some (some (20 : ℚ))) := by
  refine ⟨?_, by norm_num [economicsRevenue], by simp⟩
  have ha : acres "43560" = some 1 := by
    have h : jsNumber "43560" = some 43560 := by rfl
    simp [acres, h]
  have hb : (applyShortTermResponse initialResultsState demoResponse).predictedBaseYield
      = some 5 := by rfl
  rw [ha, hb]
  simp [expectedRevenue]

theorem applyShortTermResponse_plans (st : ResultsState) (json : JsVal) :
    (applyShortTermResponse st json).plans = mkPlanOptions (recsOf json) := by
  by_cases h : (mkPlanOptions (recsOf json)).length > 0 <;>
    simp [applyShortTermResponse, h]

theorem jsIndex_natCast (l : List PlanOption) (i : Nat) :
    jsIndex l (i : ℚ) = l.get? i := by
  simp [jsIndex]

theorem mkPlanOptions_get?_baseYield (recs : List JsVal) (i : Nat)
    (hi : i < recs.length) :
    ((mkPlanOptions recs).get? i).map (fun p => p.baseYield)
      = some (extractBaseYield (recs.getD i JsVal.undef)) := by
  unfold mkPlanOptions
  rw [List.get?_eq_getElem?, List.getElem?_map, List.getElem?_enum,
    List.getElem?_eq_getElem hi]
  simp [List.getD, List.getElem?_eq_getElem hi]

/-- Claim C4 (amended): the Expected Revenue figure the results screen
displays for the selected plan equals `acres × extractBaseYield(rec)` for
the selected recommendation — a two-factor product whose second factor
prefers `profit_per_acre` — not `acres × effective_yield ×
price_per_unit`. -/
theorem expectedRevenue_eq_acres_mul_extracted
    (st : ResultsState) (json : JsVal) (recs : List JsVal)
    (hrecs : json.get "recommendations" = JsVal.arr recs)
    (v : String) (i : Nat)
    (hv : jsNumber v = some (i : ℚ)) (hi : i < recs.length) (a : JsNum) :
    expectedRevenue a
        (onPlanSelectChange (applyShortTermResponse st json) v).predictedBaseYield
      = (extractBaseYield (recs.getD i JsVal.undef)).map
          (fun b => a.map (fun x => x * b)) := by
  have hr : recsOf json = recs := by
    unfold recsOf
    rw [hrecs]
  have hplans : (applyShortTermResponse st json).plans = mkPlanOptions recs := by
    rw [applyShortTermResponse_plans, hr]
  obtain ⟨p, hp, hpy⟩ : ∃ p, (mkPlanOptions recs).get? i = some p ∧
      p.baseYield = extractBaseYield (recs.getD i JsVal.undef) := by
    cases hg : (mkPlanOptions recs).get? i with
    | none =>
      have := mkPlanOptions_get?_baseYield recs i hi
      rw [hg] at this
      simp at this
    | some p =>
      have h2 := mkPlanOptions_get?_baseYield recs i hi
      rw [hg, Option.map_some'] at h2
      exact ⟨p, rfl, Option.some.inj h2⟩
  have hsel : (onPlanSelectChange (applyShortTermResponse st json) v).predictedBaseYield
      = p.baseYield := by
    unfold onPlanSelectChange
    rw [hv]
    simp only [hplans, jsIndex_natCast, hp]
  rw [hsel, hpy]
  rfl

theorem expectedRevenue_eq_acres_mul_extracted_witness :
    (demoResponseTwo.get "recommendations" = JsVal.arr
        [demoRecommendation,
         JsVal.obj [("crop_name", JsVal.strV "rice"),
                    ("expected_yield", JsVal.numV (some 7))]] ∧
      jsNumber "1" = some ((1 : Nat) : ℚ) ∧ 1 < 2) ∧
    expectedRevenue (some 2)
        (onPlanSelectChange (applyShortTermResponse initialResultsState demoResponseTwo)
          "1").predictedBaseYield
      = (extractBaseYield
          (([demoRecommendation,
             JsVal.obj [("crop_name", JsVal.strV "rice"),
                        ("expected_yield", JsVal.numV (some 7))]] :
              List JsVal).getD 1 JsVal.undef)).map
          (fun b => (some (2 : ℚ)).map (fun x => x * b)) :=
  ⟨⟨by rfl, by rfl, by decide⟩,
    expectedRevenue_eq_acres_mul_extracted initialResultsState demoResponseTwo
      [demoRecommendation,
       JsVal.obj [("crop_name", JsVal.strV "rice"),
                  ("expected_yield", JsVal.numV (some 7))]]
      (by rfl) "1" 1 (by rfl) (by decide) (some 2)⟩

theorem rotationStep_month (candsOf : Nat → List CropCandidate) (bonus threshold : ℚ)
    (hist : List (Option String)) (m : Nat) :
    (rotationStep candsOf bonus threshold hist m).month = m := by
  unfold rotationStep
  cases pickBest bonus hist (survivors (candsOf m) threshold) <;> rfl

theorem planMonths_map_month (candsOf : Nat → List CropCandidate) (bonus threshold : ℚ)
    (ms : List Nat) :
    ∀ hist, (planMonths candsOf bonus threshold ms hist).map RotationEntry.month = ms := by
  induction ms with
  | nil => intro hist; rfl
  | cons m ms ih =>
    intro hist
    unfold planMonths
    simp only [List.map_cons, rotationStep_month, ih]

theorem planMonths_null_crop (candsOf : Nat → List CropCandidate) (bonus threshold : ℚ)
    (ms : List Nat) :
    ∀ hist e, e ∈ planMonths candsOf bonus threshold ms hist →
      survivors (candsOf e.month) threshold = [] →
      e.crop = none ∧ e.reason = some "NO_CANDIDATE" := by
  induction ms with
  | nil => intro hist e he; simp [planMonths] at he
  | cons m ms ih =>
    intro hist e he hs
    unfold planMonths at he
    rcases List.mem_cons.mp he with he | he
    · subst he
      have hm : (rotationStep candsOf bonus threshold hist m).month = m :=
        rotationStep_month candsOf bonus threshold hist m
      rw [hm] at hs
      unfold rotationStep
      rw [hs]
      exact ⟨rfl, rfl⟩
    · exact ih _ e he hs

theorem plan_annual_map_month (candsOf : Nat → List CropCandidate) (startMonth : Nat)
    (bonus threshold : ℚ) :
    (plan_annual candsOf startMonth bonus threshold).map RotationEntry.month
      = monthSeq startMonth :=
  planMonths_map_month candsOf bonus threshold (monthSeq startMonth) []

theorem planMonths_getD_month (candsOf : Nat → List CropCandidate) (bonus threshold : ℚ)
    (ms : List Nat) :
    ∀ hist i, i < ms.length →
      ((planMonths candsOf bonus threshold ms hist).getD i default).month = ms.getD i 0 := by
  induction ms with
  | nil => intro hist i hi; simp at hi
  | cons m ms ih =>
    intro hist i hi
    unfold planMonths
    cases i with
    | zero => simp [rotationStep_month]
    | succ j =>
      simp only [List.getD_cons_succ]
      exact ih _ j (by simpa using hi)

theorem monthSeq_getD (startMonth i : Nat) (hi : i < 12) :
    (monthSeq startMonth).getD i 0 = (startMonth - 1 + i) % 12 + 1 := by
  unfold monthSeq
  rw [List.getD_eq_getElem?_getD, List.getElem?_map, List.getElem?_range hi]
  rfl

/-- Claim C1: for every candidate environment (hence every parcel) and
every start month in 1..12, `plan_annual` returns exactly 12 entries,
one per calendar month, beginning at the start month and continuing in
calendar order, wrapping modulo 12 to month 1 after month 12; a month
with no surviving candidate still gets an entry with a null crop and a
reason code. -/
theorem plan_annual_twelve_calendar_entries
    (candsOf : Nat → List CropCandidate) (startMonth : Nat) (bonus threshold : ℚ)
    (h1 : 1 ≤ startMonth) (h2 : startMonth ≤ 12) :
    (plan_annual candsOf startMonth bonus threshold).length = 12 ∧
    (plan_annual candsOf startMonth bonus threshold).map RotationEntry.month
      = monthSeq startMonth ∧
    ((plan_annual candsOf startMonth bonus threshold).getD 0 default).month
      = startMonth ∧
    (∀ i, i < 12 →
      ((plan_annual candsOf startMonth bonus threshold).getD i default).month
        = (startMonth - 1 + i) % 12 + 1) ∧
    (∀ i, i + 1 < 12 →
      ((plan_annual candsOf startMonth bonus threshold).getD (i + 1) default).month
        = ((plan_annual candsOf startMonth bonus threshold).getD i default).month
            % 12 + 1) ∧
    (monthSeq startMonth).Perm ((List.range 12).map (fun i => i + 1)) ∧
    (∀ e ∈ plan_annual candsOf startMonth bonus threshold,
      survivors (candsOf e.month) threshold = [] →
      e.crop = none ∧ e.reason = some "NO_CANDIDATE") := by
  have hlen12 : (monthSeq startMonth).length = 12 := by
    unfold monthSeq
    rw [List.length_map, List.length_range]
  have hmonth : ∀ i, i < 12 →
      ((plan_annual candsOf startMonth bonus threshold).getD i default).month
        = (startMonth - 1 + i) % 12 + 1 := by
    intro i hi
    unfold plan_annual
    rw [planMonths_getD_month candsOf bonus threshold (monthSeq startMonth) [] i
      (by rw [hlen12]; exact hi)]
    exact monthSeq_getD startMonth i hi
  refine ⟨?_, plan_annual_map_month candsOf startMonth bonus threshold, ?_, hmonth,
    ?_, ?_, ?_⟩
  · have := congrArg List.length (plan_annual_map_month candsOf startMonth bonus threshold)
    rw [List.length_map, hlen12] at this
    exact this
  · have h0 := hmonth 0 (by omega)
    rw [h0]
    omega
  · intro i hi
    rw [hmonth (i + 1) hi, hmonth i (by omega)]
    omega
  · interval_cases startMonth <;> decide
  · exact planMonths_null_crop candsOf bonus threshold (monthSeq startMonth) []

theorem plan_annual_twelve_calendar_entries_witness :
    ((1 : Nat) ≤ 3 ∧ (3 : Nat) ≤ 12) ∧
    (plan_annual (fun _ => []) 3 0 0).length = 12 ∧
    ((plan_annual (fun _ => []) 3 0 0).getD 0 default).month = 3 :=
  ⟨⟨by decide, by decide⟩,
    (plan_annual_twelve_calendar_entries (fun _ => []) 3 0 0 (by decide) (by decide)).1,
    (plan_annual_twelve_calendar_entries (fun _ => []) 3 0 0 (by decide) (by decide)).2.2.1⟩

/-- Claim C8: the image-ordering collaborator receives an ordered
crop-name sequence — at most 5 names for a short-term prediction, in
rank order (the ranked result is sorted most-profitable-first), and at
most 12 names for a long-term plan, one per month in calendar order (the
months contributing images form a subsequence of the planner's calendar
month sequence). -/
theorem image_order_short_rank_long_calendar
    (cands : List RecommendationRecord) (minc : ℚ)
    (candsOf : Nat → List CropCandidate) (startMonth : Nat) (bonus threshold : ℚ) :
    (shortTermImageNames (predict_month cands 5 "profit" minc)).length ≤ 5 ∧
    shortTermImageNames (predict_month cands 5 "profit" minc)
      = (predict_month cands 5 "profit" minc).map (fun r => r.crop_name) ∧
    List.Sorted (rankRel "profit") (predict_month cands 5 "profit" minc) ∧
    (longTermImageNames (plan_annual candsOf startMonth bonus threshold)).length ≤ 12 ∧
    List.Sublist
      (((plan_annual candsOf startMonth bonus threshold).filter
          (fun e => e.crop.isSome)).map RotationEntry.month)
      (monthSeq startMonth) := by
  refine ⟨?_, ?_, ?_, ?_, ?_⟩
  · unfold shortTermImageNames
    rw [List.length_map]
    exact List.length_take_le 5 _
  · unfold shortTermImageNames
    rw [List.take_of_length_le (by exact List.length_take_le 5 _)]
  · unfold predict_month
    exact List.Pairwise.sublist (List.take_sublist 5 _)
      (List.sorted_insertionSort (rankRel "profit") _)
  · unfold longTermImageNames
    have hle1 : (((plan_annual candsOf startMonth bonus threshold).take 12).filterMap
          (fun e => e.crop)).length
        ≤ ((plan_annual candsOf startMonth bonus threshold).take 12).length :=
      List.length_filterMap_le _ _
    have hle2 : ((plan_annual candsOf startMonth bonus threshold).take 12).length ≤ 12 :=
      List.length_take_le 12 _
    omega
  · rw [← plan_annual_map_month candsOf startMonth bonus threshold]
    exact List.Sublist.map RotationEntry.month (List.filter_sublist _)

theorem shortTermPayload_within_declared_ranges_witness :
    (1 ≤ (shortTermPayload "" "").month ∧ (shortTermPayload "" "").month ≤ 12) ∧
    (findIndexAux (fun m => jsToLower m == jsToLower "Foo") MONTHS 0 = none ∧
      monthToNumber "Foo" = 1) :=
  ⟨⟨(shortTermPayload_within_declared_ranges "" "").1,
    (shortTermPayload_within_declared_ranges "" "").2.1⟩,
    by rfl,
    (shortTermPayload_within_declared_ranges "" "").2.2.2.1 "Foo" (by rfl)⟩

theorem extractBaseYield_matches_tolerant_order_witness :
    (¬ (JsVal.nullV.truthy = true ∧ JsVal.nullV.isObjLike = true) ∧
      extractBaseYield JsVal.nullV = none) ∧
    ((∀ k ∈ yieldFieldOrder, num ((JsVal.obj []).get k) = none) ∧
      extractBaseYield (JsVal.obj []) = none) :=
  ⟨⟨by decide,
    (extractBaseYield_matches_tolerant_order JsVal.nullV).2.1 (by decide)⟩,
    by decide,
    (extractBaseYield_matches_tolerant_order (JsVal.obj [])).2.2 (by decide)⟩
